import Mathlib

/-!
Shallow embedding of the HITbackend Express server (src/server.js): the
request handlers for job creation and lookup, candidate creation and lookup,
evaluation persistence, and the spreadsheet export route, together with the
JavaScript value semantics (truthiness, array normalization, Array.join,
Date.toISOString) that those handlers rely on.  External collaborators are
modelled explicitly: the blob store as a function from files to links, each
document store as a list threaded through its handler, the sheet as a list of
rows.
-/

/-- JSON-style values of a request body parsed by express.json, together with
the JavaScript undefined value that destructuring an absent field yields. -/
inductive JVal where
  | str (s : String)
  | num (n : Int)
  | bool (b : Bool)
  | null
  | undef
  | arr (elems : List JVal)
  | obj (fields : List (String × JVal))

/-- JavaScript truthiness on JVal: the empty string, zero, false, null and
undefined are falsy; every other value, including every array, is truthy. -/
def jsTruthy : JVal → Bool
  | .str s => s.length != 0
  | .num n => n != 0
  | .bool b => b
  | .null => false
  | .undef => false
  | .arr _ => true
  | .obj _ => true

/-- Embeds the JavaScript expression a || b. -/
def jsOr (a b : JVal) : JVal := if jsTruthy a then a else b

mutual

/-- JavaScript abstract ToString on body values: strings unchanged, numbers in
decimal, an array renders as its elements joined by commas. -/
def jsToString : JVal → String
  | .str s => s
  | .num n => toString n
  | .bool b => if b then "true" else "false"
  | .null => "null"
  | .undef => "undefined"
  | .obj _ => "[object Object]"
  | .arr elems => jsJoin "," elems

/-- Embeds Array.prototype.join: elements are converted with ToString, except
that null and undefined elements render as the empty string. -/
def jsJoin (sep : String) : List JVal → String
  | [] => ""
  | [.null] => ""
  | [.undef] => ""
  | [v] => jsToString v
  | .null :: vs => "" ++ sep ++ jsJoin sep vs
  | .undef :: vs => "" ++ sep ++ jsJoin sep vs
  | v :: vs => jsToString v ++ sep ++ jsJoin sep vs

end

/-- A multipart form text field as multer (busboy) delivers it to req.body: a
single string, a repeated field collected into a list of strings, or absent. -/
inductive FormVal where
  | str (s : String)
  | arr (elems : List String)
  | undef
deriving DecidableEq

/-- JavaScript string coercion of a form value as used in template literals:
an array joins with commas, undefined renders as the word undefined. -/
def formValToJsString : FormVal → String
  | .str s => s
  | .arr elems => String.intercalate "," elems
  | .undef => "undefined"

/-- An uploaded file as multer memory storage presents it. -/
structure DriveFile where
  originalname : String
  mimetype : String
  content : String

/-- Embeds the recurring pattern x = [] (destructuring default for an absent
field) followed by Array.isArray(x) ? x : [x]: an absent field yields the
empty list, a submitted list stays itself, a lone string becomes a one
element list. -/
def normalizeList : FormVal → List String
  | .undef => []
  | .arr elems => elems
  | .str s => [s]

/-- Milliseconds per day, as in the ECMAScript date model. -/
def msPerDay : Nat := 86400000

/-- Gregorian leap year test, as in ECMAScript DaysInYear. -/
def isLeapYear (y : Nat) : Bool := (y % 4 == 0 && y % 100 != 0) || y % 400 == 0

def daysInYear (y : Nat) : Nat := if isLeapYear y then 366 else 365

/-- ECMAScript DayFromYear: days from 1970-01-01 to the first day of year y. -/
def dayFromYear (y : Nat) : Nat :=
  365 * (y - 1970) + (y - 1969) / 4 - (y - 1901) / 100 + (y - 1601) / 400

/-- Bounded search realizing ECMAScript YearFromTime: the largest year whose
first day is at or before the given day number. -/
def yearFromDayAux (day : Nat) : Nat → Nat → Nat
  | 0, y => y
  | fuel + 1, y => if dayFromYear (y + 1) ≤ day then yearFromDayAux day fuel (y + 1) else y

def yearFromDay (day : Nat) : Nat := yearFromDayAux day 9000 1970

/-- ECMAScript InLeapYear, as 0 or 1. -/
def inLeapL (y : Nat) : Nat := if isLeapYear y then 1 else 0

/-- ECMAScript MonthFromTime (returned 1-based here, as toISOString prints it)
from the day within the year and the leap indicator. -/
def monthFromDoy (doy L : Nat) : Nat :=
  if doy < 31 then 1
  else if doy < 59 + L then 2
  else if doy < 90 + L then 3
  else if doy < 120 + L then 4
  else if doy < 151 + L then 5
  else if doy < 181 + L then 6
  else if doy < 212 + L then 7
  else if doy < 243 + L then 8
  else if doy < 273 + L then 9
  else if doy < 304 + L then 10
  else if doy < 334 + L then 11
  else 12

/-- ECMAScript DateFromTime from the day within the year. -/
def dateFromDoy (doy L : Nat) : Nat :=
  if doy < 31 then doy + 1
  else if doy < 59 + L then doy - 30
  else if doy < 90 + L then doy - 58 - L
  else if doy < 120 + L then doy - 89 - L
  else if doy < 151 + L then doy - 119 - L
  else if doy < 181 + L then doy - 150 - L
  else if doy < 212 + L then doy - 180 - L
  else if doy < 243 + L then doy - 211 - L
  else if doy < 273 + L then doy - 242 - L
  else if doy < 304 + L then doy - 272 - L
  else if doy < 334 + L then doy - 303 - L
  else doy - 333 - L

def digitChar (n : Nat) : Char := Char.ofNat (48 + n)

/-- Decimal digits of a natural number, most significant first. -/
def natDigits (n : Nat) : List Char :=
  if _h : n < 10 then [digitChar n]
  else natDigits (n / 10) ++ [digitChar (n % 10)]
termination_by n
decreasing_by simp_wf; omega

/-- Left padding with zeros to the given width. -/
def padZeros (w : Nat) (l : List Char) : List Char :=
  List.replicate (w - l.length) '0' ++ l

def pad2c (n : Nat) : List Char := padZeros 2 (natDigits n)

def pad4c (n : Nat) : List Char := padZeros 4 (natDigits n)

/-- The date component of new Date(t).toISOString(), i.e. the part before the
letter T that the split in the handler selects: the UTC calendar day of the
epoch millisecond count t, rendered YYYY-MM-DD following ECMAScript
YearFromTime, MonthFromTime and DateFromTime. -/
def jsISODateChars (t : Nat) : List Char :=
  let day := t / msPerDay
  let y := yearFromDay day
  let doy := day - dayFromYear y
  let L := inLeapL y
  pad4c y ++ '-' :: (pad2c (monthFromDoy doy L) ++ '-' :: pad2c (dateFromDoy doy L))

def jsISODate (t : Nat) : String := ⟨jsISODateChars t⟩

structure JobBody where
  jobId : FormVal := FormVal.undef
  positionTitle : FormVal := FormVal.undef
  jobClassification : FormVal := FormVal.undef
  experience : FormVal := FormVal.undef
  education : FormVal := FormVal.undef
  locationZip : FormVal := FormVal.undef
  organizationLevel : FormVal := FormVal.undef
  attitude : FormVal := FormVal.undef
  comments : FormVal := FormVal.undef
  jobDescription : FormVal := FormVal.undef
  certifications : FormVal := FormVal.undef
  tools : FormVal := FormVal.undef

/-- A document of the Job model (src/server.js lines 36-56). -/
structure JobRecord where
  jobId : FormVal
  positionTitle : FormVal
  jobClassification : FormVal
  experience : FormVal
  education : FormVal
  locationZip : FormVal
  organizationLevel : FormVal
  attitude : FormVal
  comments : FormVal
  jobDescription : FormVal
  certifications : List String
  tools : List String
  attachmentLinks : List String
  datePosted : String

/-- The upload loop of POST /api/jobs: for each file in submission order one
call to the blob store (drive.files.create) pushes the returned webViewLink
onto the accumulator.  The blob store is modelled by the function upload. -/
def uploadFiles (upload : DriveFile → String) : List DriveFile → List String → List String
  | [], links => links
  | f :: fs, links => uploadFiles upload fs (links ++ [upload f])

/-- The job document built and saved by POST /api/jobs at clock time t. -/
def mkJob (body : JobBody) (files : List DriveFile) (upload : DriveFile → String)
    (t : Nat) : JobRecord where
  jobId := body.jobId
  positionTitle := body.positionTitle
  jobClassification := body.jobClassification
  experience := body.experience
  education := body.education
  locationZip := body.locationZip
  organizationLevel := body.organizationLevel
  attitude := body.attitude
  comments := body.comments
  jobDescription := body.jobDescription
  certifications := normalizeList body.certifications
  tools := normalizeList body.tools
  attachmentLinks := uploadFiles upload files []
  datePosted := jsISODate t

structure JobCreateResponse where
  status : Nat
  message : String
  jobId : FormVal
  attachmentLinks : List String

/-- POST /api/jobs: uploads every attachment in order, saves the job document
(the store assigns it the native identifier nid), and answers 201 with the
caller supplied jobId and the collected links. -/
def createJob (body : JobBody) (files : List DriveFile) (upload : DriveFile → String)
    (nid : String) (t : Nat) (store : List (String × JobRecord)) :
    JobCreateResponse × List (String × JobRecord) :=
  let job := mkJob body files upload t
  ({ status := 201, message := "Job created successfully", jobId := body.jobId,
     attachmentLinks := job.attachmentLinks },
   store ++ [(nid, job)])

def isHexChar (c : Char) : Bool :=
  c.isDigit || ('a' ≤ c && c ≤ 'f') || ('A' ≤ c && c ≤ 'F')

/-- bson ObjectId.isValid on strings: any 12 character string, or a 24
character hexadecimal string. -/
def isValidObjectIdString (s : String) : Bool :=
  s.length == 12 || (s.length == 24 && s.data.all isHexChar)

/-- Model of mongoose Model.findById: the argument is first cast to an
ObjectId (an uncastable string raises a CastError, the error case here), then
matched against the native identifier of each stored document. -/
def jobFindById (store : List (String × JobRecord)) (id : String) :
    Except Unit (Option JobRecord) :=
  if isValidObjectIdString id then
    .ok ((store.find? (fun p => p.1 == id)).map (fun p => p.2))
  else
    .error ()

/-- GET /api/jobs/:id: 200 with the job, 404 when absent, 500 when the lookup
throws, in particular on the CastError for an uncastable id string. -/
def getJobHandler (store : List (String × JobRecord)) (id : String) :
    Nat × Option JobRecord :=
  match jobFindById store id with
  | .error _ => (500, none)
  | .ok none => (404, none)
  | .ok (some j) => (200, some j)

structure CandBody where
  jobId : FormVal := FormVal.undef
  candidateId : FormVal := FormVal.undef
  firstName : FormVal := FormVal.undef
  lastName : FormVal := FormVal.undef
  email : FormVal := FormVal.undef
  phone : FormVal := FormVal.undef
  education : FormVal := FormVal.undef
  experience : FormVal := FormVal.undef
  linkedin : FormVal := FormVal.undef
  address : FormVal := FormVal.undef
  totalScore : FormVal := FormVal.undef
  skills : FormVal := FormVal.undef
  certifications : FormVal := FormVal.undef
  tools : FormVal := FormVal.undef

/-- A document of the Candidate model (src/server.js lines 160-178). -/
structure CandidateRecord where
  jobId : FormVal
  candidateId : FormVal
  firstName : FormVal
  lastName : FormVal
  email : FormVal
  phone : FormVal
  education : FormVal
  experience : FormVal
  linkedin : FormVal
  address : FormVal
  totalScore : FormVal
  skills : List String
  certifications : List String
  tools : List String
  resumeLink : Option String

/-- The candidate document built and saved by POST /api/candidates; a present
resume file is renamed to the firstName_lastName_Resume.pdf convention before
the blob store call. -/
def mkCandidate (body : CandBody) (resume : Option DriveFile)
    (upload : DriveFile → String) : CandidateRecord where
  jobId := body.jobId
  candidateId := body.candidateId
  firstName := body.firstName
  lastName := body.lastName
  email := body.email
  phone := body.phone
  education := body.education
  experience := body.experience
  linkedin := body.linkedin
  address := body.address
  totalScore := body.totalScore
  skills := normalizeList body.skills
  certifications := normalizeList body.certifications
  tools := normalizeList body.tools
  resumeLink :=
    match resume with
    | some f => some (upload
        { originalname := formValToJsString body.firstName ++ "_" ++
            formValToJsString body.lastName ++ "_Resume.pdf",
          mimetype := f.mimetype, content := f.content })
    | none => none

/-- POST /api/candidates: optional resume upload, save, 201 with the link. -/
def createCandidate (body : CandBody) (resume : Option DriveFile)
    (upload : DriveFile → String) (store : List CandidateRecord) :
    (Nat × Option String) × List CandidateRecord :=
  let cand := mkCandidate body resume upload
  ((201, cand.resumeLink), store ++ [cand])

/-- The candidate schema declares jobId as a plain String path with no ref
option (src/server.js lines 160-178), so populate has no foreign model. -/
def candidateJobIdRef : Option String := none

structure PopulatedCandidate where
  cand : CandidateRecord
  jobEnrichment : Option (FormVal × FormVal)

/-- Model of mongoose populate on the jobId path, selecting jobClassification
and positionTitle.  When the schema path carries no ref and the call passes
no model option, mongoose cannot resolve a foreign model, so no join is
performed and the document is returned without enrichment (depending on the
mongoose version this surfaces as a MissingSchemaError or as a silently
skipped path; in neither case is the Job collection consulted).  Even with a
ref present, populate matches the local value against the native _id of the
foreign model, never against the business jobId field. -/
def populateJobId (ref : Option String) (jobs : List (String × JobRecord))
    (c : CandidateRecord) : PopulatedCandidate :=
  match ref with
  | none => { cand := c, jobEnrichment := none }
  | some _ =>
    { cand := c,
      jobEnrichment := (jobs.find? (fun p => p.1 == formValToJsString c.jobId)).map
        (fun p => (p.2.jobClassification, p.2.positionTitle)) }

structure GetCandidateResult where
  status : Nat
  success : Bool
  message : Option String
  data : Option PopulatedCandidate

/-- GET /api/getCandidate/:candidateId: findOne on the business candidateId
field, populate of the job reference, 404 with a structured body when no
candidate matches. -/
def getCandidateHandler (cands : List CandidateRecord)
    (jobs : List (String × JobRecord)) (cid : String) : GetCandidateResult :=
  match cands.find? (fun c => c.candidateId == FormVal.str cid) with
  | none => { status := 404, success := false, message := some "Candidate not found.", data := none }
  | some c => { status := 200, success := true, message := none,
                data := some (populateJobId candidateJobIdRef jobs c) }

structure EvalBody where
  candidateId : JVal := JVal.undef
  evaluationResults : JVal := JVal.undef
  ScoresFactor : JVal := JVal.undef

/-- A document of the Evaluation model (src/server.js lines 341-348). -/
structure EvalRecord where
  candidateId : JVal
  evaluationResults : JVal
  ScoresFactor : JVal

/-- Mongoose gives every array path an implicit default of the empty array,
applied when the supplied value is undefined. -/
def applyArrayDefault : JVal → JVal
  | .undef => .arr []
  | v => v

/-- Mongoose (version 6 and later) required check on an array path: the value
must not be null or undefined; an empty array passes. -/
def arrayCheckRequired : JVal → Bool
  | .null => false
  | .undef => false
  | _ => true

/-- Mongoose required check on a String path: a non-empty string, or a value
whose string cast is non-empty. -/
def stringCheckRequired : JVal → Bool
  | .str s => s.length != 0
  | .null => false
  | .undef => false
  | _ => true

def evalValidate (r : EvalRecord) : Bool :=
  stringCheckRequired r.candidateId && arrayCheckRequired r.evaluationResults &&
    arrayCheckRequired r.ScoresFactor

/-- POST /api/saveEvaluation: 400 when candidateId or evaluationResults is
falsy; otherwise builds the document (array defaults applied), validates it
against the schema and saves it; a validation failure surfaces as the generic
500 of the catch block. -/
def saveEvaluation (body : EvalBody) (store : List EvalRecord) :
    Nat × List EvalRecord :=
  if !jsTruthy body.candidateId || !jsTruthy body.evaluationResults then
    (400, store)
  else
    let newEvaluation : EvalRecord :=
      { candidateId := body.candidateId
        evaluationResults := applyArrayDefault body.evaluationResults
        ScoresFactor := applyArrayDefault body.ScoresFactor }
    if evalValidate newEvaluation then (201, store ++ [newEvaluation]) else (500, store)

structure SheetBody where
  candidateId : JVal := JVal.undef
  firstName : JVal := JVal.undef
  lastName : JVal := JVal.undef
  email : JVal := JVal.undef
  phone : JVal := JVal.undef
  education : JVal := JVal.undef
  experience : JVal := JVal.undef
  linkedin : JVal := JVal.undef
  address : JVal := JVal.undef
  totalScore : JVal := JVal.undef
  skills : JVal := JVal.undef
  certifications : JVal := JVal.undef
  tools : JVal := JVal.undef

def notSpecified : JVal := JVal.str "Not Specified"

/-- Embeds Array.isArray(v) ? v.join(", ") : v || "Not Specified". -/
def listCell (v : JVal) : JVal :=
  match v with
  | JVal.arr elems => JVal.str (jsJoin ", " elems)
  | v => jsOr v notSpecified

/-- The single row built by POST /api/candidateToSheet, in source order. -/
def candidateRow (b : SheetBody) : List JVal :=
  [jsOr b.candidateId notSpecified,
   jsOr b.firstName notSpecified,
   jsOr b.lastName notSpecified,
   jsOr b.email notSpecified,
   jsOr b.phone notSpecified,
   jsOr b.education notSpecified,
   jsOr b.experience notSpecified,
   jsOr b.linkedin notSpecified,
   jsOr b.address notSpecified,
   jsOr b.totalScore (JVal.str "0"),
   listCell b.skills,
   listCell b.certifications,
   listCell b.tools]

/-- POST /api/candidateToSheet: appends the one built row to the target sheet
(modelled as its list of rows) and answers 200. -/
def candidateToSheet (b : SheetBody) (sheet : List (List JVal)) :
    Nat × List (List JVal) :=
  (200, sheet ++ [candidateRow b])

/-- Month lengths of the Gregorian calendar; L is 1 in a leap year, else 0. -/
def daysInMonthList (L : Nat) : List Nat :=
  [31, 28 + L, 31, 30, 31, 30, 31, 31, 30, 31, 30, 31]

def daysInMonth (L m : Nat) : Nat := (daysInMonthList L).getD (m - 1) 0

def daysBeforeMonth (L m : Nat) : Nat := ((daysInMonthList L).take (m - 1)).sum

/-- Days from 1970-01-01 to the first day of year y, written independently of
the ECMAScript formula as the sum of the intervening year lengths. -/
def specDaysToYear (y : Nat) : Nat :=
  ((List.range (y - 1970)).map (fun i => daysInYear (1970 + i))).sum

/-- Day number (days since 1970-01-01) of the calendar date y-m-d. -/
def specDaysSinceEpoch (y m d : Nat) : Nat :=
  specDaysToYear y + daysBeforeMonth (inLeapL y) m + (d - 1)

def validCivilDate (y m d : Nat) : Prop :=
  1970 ≤ y ∧ 1 ≤ m ∧ m ≤ 12 ∧ 1 ≤ d ∧ d ≤ daysInMonth (inLeapL y) m

/-- The YYYY-MM-DD format: four digit year, two digit month, two digit day. -/
def fmtDate (y m d : Nat) : String :=
  ⟨pad4c y ++ '-' :: (pad2c m ++ '-' :: pad2c d)⟩

/-- Fixture blob store used by the concrete witnesses. -/
def up0 : DriveFile → String := fun f => "https://drive.example/" ++ f.originalname

/-- Fixture job body with a scalar certifications field and a list tools
field. -/
def jbW : JobBody := { certifications := .str "Azure", tools := .arr ["Jira", "Git"] }

/-- Fixture candidate body exercising all three normalized fields. -/
def cbW : CandBody := { skills := .str "C", certifications := .arr ["A", "B"] }

/-- Fixture sheet body with every field absent. -/
def sb0 : SheetBody := {}

/-- Fixture sheet body with list valued skill fields. -/
def sbL : SheetBody :=
  { skills := .arr [.str "a", .str "b"], certifications := .arr [.str "c"],
    tools := .arr [] }

/-- Fixture sheet body with falsy present fields. -/
def sbF : SheetBody :=
  { candidateId := .str "", firstName := .str "", lastName := .str "",
    email := .str "", phone := .str "", education := .str "",
    experience := JVal.str "", linkedin := JVal.str "", address := JVal.str "",
    totalScore := .num 0, skills := JVal.str "", certifications := JVal.str "",
    tools := JVal.str "" }

/-- Fixture stored job whose business jobId is J1. -/
def jobJ1 : JobRecord :=
  { jobId := FormVal.str "J1", positionTitle := FormVal.str "Developer",
    jobClassification := FormVal.str "Engineering", experience := FormVal.undef,
    education := FormVal.undef, locationZip := FormVal.undef, organizationLevel := FormVal.undef,
    attitude := FormVal.undef, comments := FormVal.undef, jobDescription := FormVal.undef,
    certifications := [], tools := [], attachmentLinks := [],
    datePosted := "2025-01-01" }

/-- Fixture stored candidate referencing job J1 by its business id. -/
def candC1 : CandidateRecord :=
  { jobId := FormVal.str "J1", candidateId := FormVal.str "C1", firstName := FormVal.str "Ada",
    lastName := FormVal.str "L", email := FormVal.undef, phone := FormVal.undef,
    education := FormVal.undef, experience := FormVal.undef, linkedin := FormVal.undef,
    address := FormVal.undef, totalScore := FormVal.undef, skills := [],
    certifications := [], tools := [], resumeLink := none }

theorem string_eq_empty_of_length_eq_zero (s : String) (h : s.length = 0) : s = "" := by
  cases s with
  | mk data =>
    cases data with
    | nil => rfl
    | cons c cs => exact absurd (h : (c :: cs).length = 0) (by simp)

theorem jsTruthy_str_of_ne (s : String) (h : s ≠ "") : jsTruthy (JVal.str s) = true := by
  simp only [jsTruthy, bne_iff_ne, ne_eq]
  intro h0
  exact h (string_eq_empty_of_length_eq_zero s h0)

theorem uploadFiles_eq_map (upload : DriveFile → String) :
    ∀ (files : List DriveFile) (links : List String),
      uploadFiles upload files links = links ++ files.map upload
  | [], links => by simp [uploadFiles]
  | f :: fs, links => by
    rw [uploadFiles, uploadFiles_eq_map upload fs (links ++ [upload f])]
    simp

/-- Claim C1: a job creation request with N attachment files stores and
returns an attachmentLinks list with exactly N entries, the i-th entry being
the link the blob store returned for the i-th submitted file. -/
theorem createJob_attachment_links (body : JobBody) (files : List DriveFile)
    (upload : DriveFile → String) (nid : String) (t : Nat)
    (store : List (String × JobRecord)) :
    (createJob body files upload nid t store).1.status = 201 ∧
    (createJob body files upload nid t store).2
      = store ++ [(nid, mkJob body files upload t)] ∧
    (createJob body files upload nid t store).1.attachmentLinks
      = (mkJob body files upload t).attachmentLinks ∧
    (mkJob body files upload t).attachmentLinks.length = files.length ∧
    ∀ i : Nat, (mkJob body files upload t).attachmentLinks.get? i
      = (files.get? i).map upload := by
  have hmap : (mkJob body files upload t).attachmentLinks = files.map upload := by
    simp [mkJob, uploadFiles_eq_map]
  refine ⟨rfl, rfl, rfl, ?_, ?_⟩
  · rw [hmap]; simp
  · intro i; rw [hmap]; simp

/-- Claim C2: for the certifications and tools fields of job creation and the
skills, certifications and tools fields of candidate creation, a scalar value
is stored as a one element list, a list is stored unchanged, and an absent
field is stored as the empty list. -/
theorem array_field_normalization :
    (∀ (jb : JobBody) (files : List DriveFile) (upload : DriveFile → String) (t : Nat),
      (∀ s, jb.certifications = FormVal.str s → (mkJob jb files upload t).certifications = [s]) ∧
      (∀ l, jb.certifications = FormVal.arr l → (mkJob jb files upload t).certifications = l) ∧
      (jb.certifications = FormVal.undef → (mkJob jb files upload t).certifications = []) ∧
      (∀ s, jb.tools = FormVal.str s → (mkJob jb files upload t).tools = [s]) ∧
      (∀ l, jb.tools = FormVal.arr l → (mkJob jb files upload t).tools = l) ∧
      (jb.tools = FormVal.undef → (mkJob jb files upload t).tools = [])) ∧
    (∀ (cb : CandBody) (resume : Option DriveFile) (upload : DriveFile → String),
      (∀ s, cb.skills = FormVal.str s → (mkCandidate cb resume upload).skills = [s]) ∧
      (∀ l, cb.skills = FormVal.arr l → (mkCandidate cb resume upload).skills = l) ∧
      (cb.skills = FormVal.undef → (mkCandidate cb resume upload).skills = []) ∧
      (∀ s, cb.certifications = FormVal.str s → (mkCandidate cb resume upload).certifications = [s]) ∧
      (∀ l, cb.certifications = FormVal.arr l → (mkCandidate cb resume upload).certifications = l) ∧
      (cb.certifications = FormVal.undef → (mkCandidate cb resume upload).certifications = []) ∧
      (∀ s, cb.tools = FormVal.str s → (mkCandidate cb resume upload).tools = [s]) ∧
      (∀ l, cb.tools = FormVal.arr l → (mkCandidate cb resume upload).tools = l) ∧
      (cb.tools = FormVal.undef → (mkCandidate cb resume upload).tools = [])) := by
  constructor
  · intro jb files upload t
    refine ⟨?_, ?_, ?_, ?_, ?_, ?_⟩ <;>
      first
        | (intro s h; simp [mkJob, h, normalizeList])
        | (intro h; simp [mkJob, h, normalizeList])
  · intro cb resume upload
    refine ⟨?_, ?_, ?_, ?_, ?_, ?_, ?_, ?_, ?_⟩ <;>
      first
        | (intro s h; simp [mkCandidate, h, normalizeList])
        | (intro h; simp [mkCandidate, h, normalizeList])

theorem array_field_normalization_witness :
    (mkJob jbW [] up0 0).certifications = ["Azure"] ∧
    (mkJob jbW [] up0 0).tools = ["Jira", "Git"] ∧
    (mkCandidate cbW none up0).skills = ["C"] ∧
    (mkCandidate cbW none up0).certifications = ["A", "B"] ∧
    (mkCandidate cbW none up0).tools = [] := by
  obtain ⟨hj, hc⟩ := array_field_normalization
  obtain ⟨j1, j2, j3, j4, j5, j6⟩ := hj jbW [] up0 0
  obtain ⟨c1, c2, c3, c4, c5, c6, c7, c8, c9⟩ := hc cbW none up0
  exact ⟨j1 "Azure" rfl, j5 ["Jira", "Git"] rfl, c1 "C" rfl, c5 ["A", "B"] rfl, c9 rfl⟩

/-- Claim C3: a saveEvaluation request with a candidateId and a non-empty
evaluationResults but no ScoresFactor is created with status 201; the handler
validates only candidateId and evaluationResults, and the store fills the
missing ScoresFactor with its implicit empty array default. -/
theorem saveEvaluation_without_scoresFactor_created (store : List EvalRecord)
    (cid : String) (results : List JVal) (hcid : cid ≠ "") (_hres : results ≠ []) :
    saveEvaluation
        { candidateId := JVal.str cid, evaluationResults := JVal.arr results,
          ScoresFactor := JVal.undef } store
      = (201, store ++
          [{ candidateId := JVal.str cid, evaluationResults := JVal.arr results,
             ScoresFactor := JVal.arr [] }]) := by
  have ht : jsTruthy (JVal.str cid) = true := jsTruthy_str_of_ne cid hcid
  have hlen : cid.length ≠ 0 := by
    intro h0
    exact hcid (string_eq_empty_of_length_eq_zero cid h0)
  simp [saveEvaluation, ht, jsTruthy, evalValidate, stringCheckRequired,
    arrayCheckRequired, applyArrayDefault, hlen]

theorem saveEvaluation_without_scoresFactor_created_witness :
    saveEvaluation
        { candidateId := JVal.str "C1",
          evaluationResults := JVal.arr [JVal.obj [("q", JVal.str "a")]],
          ScoresFactor := JVal.undef } []
      = (201, [{ candidateId := JVal.str "C1",
                 evaluationResults := JVal.arr [JVal.obj [("q", JVal.str "a")]],
                 ScoresFactor := JVal.arr [] }]) :=
  saveEvaluation_without_scoresFactor_created [] "C1" [JVal.obj [("q", JVal.str "a")]]
    (by decide) (by simp)

/-- Claim C4: a saveEvaluation request in which candidateId or
evaluationResults is absent is answered 400 and leaves the evaluation store
unchanged. -/
theorem saveEvaluation_missing_field_rejected (body : EvalBody)
    (store : List EvalRecord)
    (h : body.candidateId = JVal.undef ∨ body.evaluationResults = JVal.undef) :
    saveEvaluation body store = (400, store) := by
  rcases h with h | h <;> simp [saveEvaluation, h, jsTruthy]

theorem saveEvaluation_missing_field_rejected_witness :
    saveEvaluation
        { candidateId := JVal.undef, evaluationResults := JVal.arr [],
          ScoresFactor := JVal.undef } [] = (400, []) :=
  saveEvaluation_missing_field_rejected _ [] (Or.inl rfl)

/-- Claim C9: the saveEvaluation required-field check tests falsiness, not
absence: an empty string candidateId is rejected with 400 exactly as a
missing one, while an empty list evaluationResults passes the check and is
never answered 400. -/
theorem saveEvaluation_falsiness :
    (∀ (body : EvalBody) (store : List EvalRecord),
       body.candidateId = JVal.str "" → (saveEvaluation body store).1 = 400) ∧
    (∀ (body : EvalBody) (store : List EvalRecord),
       jsTruthy body.candidateId = true → body.evaluationResults = JVal.arr [] →
         (saveEvaluation body store).1 ≠ 400) := by
  constructor
  · intro body store h
    simp [saveEvaluation, h, jsTruthy]
  · intro body store hc h
    unfold saveEvaluation
    rw [h, hc]
    simp only [jsTruthy, Bool.not_true, Bool.or_self, Bool.false_or, if_false,
      Bool.false_eq_true, ite_false]
    split <;> simp

theorem saveEvaluation_falsiness_witness :
    (saveEvaluation
        { candidateId := JVal.str "", evaluationResults := JVal.arr [JVal.str "x"],
          ScoresFactor := JVal.undef } []).1 = 400 ∧
    (saveEvaluation
        { candidateId := JVal.str "C1", evaluationResults := JVal.arr [],
          ScoresFactor := JVal.undef } []).1 ≠ 400 :=
  ⟨saveEvaluation_falsiness.1 _ [] rfl,
   saveEvaluation_falsiness.2 _ [] (by decide) rfl⟩

/-- Claim C5, counterexample: the id string nope identifies no stored job (the
store is empty), yet GET /api/jobs/:id answers 500, not 404, because the cast
of nope to an ObjectId throws before any lookup happens. -/
theorem getJob_nonexistent_id_claim_false :
    getJobHandler [] "nope" = (500, none) ∧ (getJobHandler [] "nope").1 ≠ 404 :=
  ⟨rfl, by decide⟩

/-- Claim C5, amended: for every id string that is castable to a store-native
identifier (any 12 character string or a 24 character hex string) and that
identifies no stored job, GET /api/jobs/:id answers 404. -/
theorem getJob_unknown_castable_id_not_found (store : List (String × JobRecord))
    (id : String) (hvalid : isValidObjectIdString id = true)
    (habsent : ∀ p ∈ store, p.1 ≠ id) :
    getJobHandler store id = (404, none) := by
  have hfind : store.find? (fun p => p.1 == id) = none := by
    rw [List.find?_eq_none]
    intro p hp
    simpa using habsent p hp
  simp [getJobHandler, jobFindById, hvalid, hfind]

theorem getJob_unknown_castable_id_not_found_witness :
    getJobHandler [] "aaaaaaaaaaaaaaaaaaaaaaaa" = (404, none) :=
  getJob_unknown_castable_id_not_found [] "aaaaaaaaaaaaaaaaaaaaaaaa" (by decide)
    (by simp)

/-- Claim C6, behavior at the failing input: the store holds a job whose
business jobId J1 is exactly the jobId reference of the stored candidate C1,
with a classification and a title set, yet fetching the candidate returns its
raw fields with no job enrichment, because the candidate schema declares
jobId without a ref and populate therefore has no foreign model to join
against (and even with one it would join on the native _id, not on the
business jobId). -/
theorem getCandidate_populate_without_ref_no_enrichment :
    candC1.jobId = FormVal.str "J1" ∧ jobJ1.jobId = FormVal.str "J1" ∧
    jobJ1.jobClassification = FormVal.str "Engineering" ∧
    jobJ1.positionTitle = FormVal.str "Developer" ∧
    getCandidateHandler [candC1] [("bbbbbbbbbbbbbbbbbbbbbbbb", jobJ1)] "C1"
      = { status := 200, success := true, message := none,
          data := some { cand := candC1, jobEnrichment := none } } :=
  ⟨rfl, rfl, rfl, rfl, rfl⟩

/-- Claim C8: candidateToSheet appends exactly one row of 13 cells in the
fixed order candidateId, firstName, lastName, email, phone, education,
experience, linkedin, address, totalScore, skills, certifications, tools;
list valued fields are joined with a comma and a space, an omitted field
becomes the string Not Specified, and an omitted totalScore becomes the
string 0. -/
theorem candidateToSheet_row_spec :
    (∀ (b : SheetBody) (sheet : List (List JVal)),
      candidateToSheet b sheet = (200, sheet ++ [candidateRow b]) ∧
      (candidateRow b).length = 13) ∧
    (∀ b : SheetBody,
      (b.candidateId = JVal.undef → (candidateRow b).get? 0 = some (JVal.str "Not Specified")) ∧
      (b.firstName = JVal.undef → (candidateRow b).get? 1 = some (JVal.str "Not Specified")) ∧
      (b.lastName = JVal.undef → (candidateRow b).get? 2 = some (JVal.str "Not Specified")) ∧
      (b.email = JVal.undef → (candidateRow b).get? 3 = some (JVal.str "Not Specified")) ∧
      (b.phone = JVal.undef → (candidateRow b).get? 4 = some (JVal.str "Not Specified")) ∧
      (b.education = JVal.undef → (candidateRow b).get? 5 = some (JVal.str "Not Specified")) ∧
      (b.experience = JVal.undef → (candidateRow b).get? 6 = some (JVal.str "Not Specified")) ∧
      (b.linkedin = JVal.undef → (candidateRow b).get? 7 = some (JVal.str "Not Specified")) ∧
      (b.address = JVal.undef → (candidateRow b).get? 8 = some (JVal.str "Not Specified")) ∧
      (b.totalScore = JVal.undef → (candidateRow b).get? 9 = some (JVal.str "0")) ∧
      (b.skills = JVal.undef → (candidateRow b).get? 10 = some (JVal.str "Not Specified")) ∧
      (∀ xs, b.skills = JVal.arr xs → (candidateRow b).get? 10 = some (JVal.str (jsJoin ", " xs))) ∧
      (b.certifications = JVal.undef → (candidateRow b).get? 11 = some (JVal.str "Not Specified")) ∧
      (∀ xs, b.certifications = JVal.arr xs → (candidateRow b).get? 11 = some (JVal.str (jsJoin ", " xs))) ∧
      (b.tools = JVal.undef → (candidateRow b).get? 12 = some (JVal.str "Not Specified")) ∧
      (∀ xs, b.tools = JVal.arr xs → (candidateRow b).get? 12 = some (JVal.str (jsJoin ", " xs)))) := by
  constructor
  · intro b sheet; exact ⟨rfl, rfl⟩
  · intro b
    refine ⟨?_, ?_, ?_, ?_, ?_, ?_, ?_, ?_, ?_, ?_, ?_, ?_, ?_, ?_, ?_, ?_⟩ <;>
      first
        | (intro h; simp [candidateRow, h, jsOr, jsTruthy, listCell, notSpecified])
        | (intro xs h; simp [candidateRow, h, jsOr, jsTruthy, listCell, notSpecified])

theorem candidateToSheet_row_spec_witness :
    candidateToSheet sb0 [] = (200, [candidateRow sb0]) ∧
    (candidateRow sb0).get? 0 = some (JVal.str "Not Specified") ∧
    (candidateRow sb0).get? 9 = some (JVal.str "0") ∧
    (candidateRow sbL).get? 10 = some (JVal.str (jsJoin ", " [JVal.str "a", JVal.str "b"])) ∧
    (candidateRow sbL).get? 11 = some (JVal.str (jsJoin ", " [JVal.str "c"])) ∧
    (candidateRow sbL).get? 12 = some (JVal.str (jsJoin ", " [])) := by
  obtain ⟨hA, hB⟩ := candidateToSheet_row_spec
  obtain ⟨h0, h1, h2, h3, h4, h5, h6, h7, h8, h9, h10u, h10, h11u, h11, h12u, h12⟩ := hB sbL
  obtain ⟨g0, g1, g2, g3, g4, g5, g6, g7, g8, g9, g10u, g10, g11u, g11, g12u, g12⟩ := hB sb0
  exact ⟨(hA sb0 []).1, g0 rfl, g9 rfl, h10 _ rfl, h11 _ rfl, h12 _ rfl⟩

/-- Claim C10: the candidateToSheet placeholders fire on any falsy present
value, not only on absence: a totalScore present and equal to numeric 0 or to
the empty string still yields the cell 0, and any other field present but
equal to the empty string yields Not Specified. -/
theorem candidateToSheet_falsy_placeholders (b : SheetBody) :
    (b.totalScore = JVal.num 0 → (candidateRow b).get? 9 = some (JVal.str "0")) ∧
    (b.totalScore = JVal.str "" → (candidateRow b).get? 9 = some (JVal.str "0")) ∧
    (b.candidateId = JVal.str "" → (candidateRow b).get? 0 = some (JVal.str "Not Specified")) ∧
    (b.firstName = JVal.str "" → (candidateRow b).get? 1 = some (JVal.str "Not Specified")) ∧
    (b.lastName = JVal.str "" → (candidateRow b).get? 2 = some (JVal.str "Not Specified")) ∧
    (b.email = JVal.str "" → (candidateRow b).get? 3 = some (JVal.str "Not Specified")) ∧
    (b.phone = JVal.str "" → (candidateRow b).get? 4 = some (JVal.str "Not Specified")) ∧
    (b.education = JVal.str "" → (candidateRow b).get? 5 = some (JVal.str "Not Specified")) ∧
    (b.experience = JVal.str "" → (candidateRow b).get? 6 = some (JVal.str "Not Specified")) ∧
    (b.linkedin = JVal.str "" → (candidateRow b).get? 7 = some (JVal.str "Not Specified")) ∧
    (b.address = JVal.str "" → (candidateRow b).get? 8 = some (JVal.str "Not Specified")) ∧
    (b.skills = JVal.str "" → (candidateRow b).get? 10 = some (JVal.str "Not Specified")) ∧
    (b.certifications = JVal.str "" → (candidateRow b).get? 11 = some (JVal.str "Not Specified")) ∧
    (b.tools = JVal.str "" → (candidateRow b).get? 12 = some (JVal.str "Not Specified")) := by
  refine ⟨?_, ?_, ?_, ?_, ?_, ?_, ?_, ?_, ?_, ?_, ?_, ?_, ?_, ?_⟩ <;>
    (intro h; simp [candidateRow, h, jsOr, jsTruthy, listCell, notSpecified])

theorem candidateToSheet_falsy_placeholders_witness :
    (candidateRow sbF).get? 9 = some (JVal.str "0") ∧
    (candidateRow sbF).get? 0 = some (JVal.str "Not Specified") ∧
    (candidateRow sbF).get? 10 = some (JVal.str "Not Specified") := by
  obtain ⟨p1, p2, q0, q1, q2, q3, q4, q5, q6, q7, q8, q10, q11, q12⟩ :=
    candidateToSheet_falsy_placeholders sbF
  exact ⟨p1 rfl, q0 rfl, q10 rfl⟩

theorem isLeapYear_iff (y : Nat) :
    isLeapYear y = true ↔ (y % 4 = 0 ∧ y % 100 ≠ 0) ∨ y % 400 = 0 := by
  simp [isLeapYear]

set_option maxHeartbeats 800000 in
theorem dayFromYear_succ (y : Nat) (hy : 1970 ≤ y) :
    dayFromYear (y + 1) = dayFromYear y + daysInYear y := by
  rcases Bool.eq_false_or_eq_true (isLeapYear y) with hb | hb
  · have hprop : (y % 4 = 0 ∧ y % 100 ≠ 0) ∨ y % 400 = 0 := (isLeapYear_iff y).mp hb
    have h366 : daysInYear y = 366 := by simp [daysInYear, hb]
    rw [h366]
    unfold dayFromYear
    omega
  · have hprop : ¬((y % 4 = 0 ∧ y % 100 ≠ 0) ∨ y % 400 = 0) := by
      rw [← isLeapYear_iff, hb]; simp
    have h365 : daysInYear y = 365 := by simp [daysInYear, hb]
    rw [h365]
    unfold dayFromYear
    omega

theorem dayFromYear_mono {a b : Nat} (ha : 1970 ≤ a) (hab : a ≤ b) :
    dayFromYear a ≤ dayFromYear b := by
  induction b, hab using Nat.le_induction with
  | base => exact Nat.le_refl _
  | succ n hn ih =>
    have := dayFromYear_succ n (le_trans ha hn)
    omega

theorem specDaysToYear_succ (y : Nat) (hy : 1970 ≤ y) :
    specDaysToYear (y + 1) = specDaysToYear y + daysInYear y := by
  have h1 : y + 1 - 1970 = (y - 1970) + 1 := by omega
  have h2 : 1970 + (y - 1970) = y := by omega
  unfold specDaysToYear
  rw [h1, List.range_succ, List.map_append, List.sum_append]
  simp [h2]

theorem dayFromYear_eq_spec (y : Nat) (hy : 1970 ≤ y) :
    dayFromYear y = specDaysToYear y := by
  induction y, hy using Nat.le_induction with
  | base => decide
  | succ n hn ih =>
    rw [dayFromYear_succ n hn, specDaysToYear_succ n hn, ih]

theorem yearFromDayAux_spec (day : Nat) :
    ∀ (fuel y : Nat), 1970 ≤ y → dayFromYear y ≤ day → day < dayFromYear (y + fuel) →
      1970 ≤ yearFromDayAux day fuel y ∧
      dayFromYear (yearFromDayAux day fuel y) ≤ day ∧
      day < dayFromYear (yearFromDayAux day fuel y + 1)
  | 0, y => by
    intro hy hle hlt
    rw [yearFromDayAux]
    simp only [Nat.add_zero] at hlt
    omega
  | fuel + 1, y => by
    intro hy hle hlt
    rw [yearFromDayAux]
    split
    · next hcond =>
      refine yearFromDayAux_spec day fuel (y + 1) (by omega) hcond ?_
      have heq : y + 1 + fuel = y + (fuel + 1) := by omega
      rw [heq]
      exact hlt
    · next hcond =>
      exact ⟨hy, hle, Nat.lt_of_not_le hcond⟩

theorem yearFromDay_spec (day : Nat) (h : day < dayFromYear 10000) :
    1970 ≤ yearFromDay day ∧ dayFromYear (yearFromDay day) ≤ day ∧
    day < dayFromYear (yearFromDay day + 1) ∧ yearFromDay day < 10000 := by
  have h0 : dayFromYear 1970 = 0 := by decide
  have hbig : dayFromYear 10000 ≤ dayFromYear (1970 + 9000) :=
    dayFromYear_mono (by omega) (by omega)
  unfold yearFromDay
  obtain ⟨h1, h2, h3⟩ := yearFromDayAux_spec day 9000 1970 (by omega) (by omega) (by omega)
  refine ⟨h1, h2, h3, ?_⟩
  by_contra hge
  push_neg at hge
  have hmono := dayFromYear_mono (a := 10000) (by omega) hge
  omega

set_option maxRecDepth 8000 in
set_option maxHeartbeats 3200000 in
theorem monthDate_spec :
    ∀ doy < 366, ∀ L < 2, doy < 365 + L →
      1 ≤ monthFromDoy doy L ∧ monthFromDoy doy L ≤ 12 ∧
      1 ≤ dateFromDoy doy L ∧ dateFromDoy doy L ≤ 31 ∧
      dateFromDoy doy L ≤ daysInMonth L (monthFromDoy doy L) ∧
      daysBeforeMonth L (monthFromDoy doy L) + (dateFromDoy doy L - 1) = doy := by
  decide

theorem natDigits_lt10 (n : Nat) (h : n < 10) : natDigits n = [digitChar n] := by
  rw [natDigits]
  simp [h]

theorem natDigits_ge10 (n : Nat) (h : 10 ≤ n) :
    natDigits n = natDigits (n / 10) ++ [digitChar (n % 10)] := by
  conv_lhs => rw [natDigits]
  simp [Nat.not_lt.mpr h]

theorem natDigits_length (k : Nat) :
    ∀ n, 10 ^ k ≤ n → n < 10 ^ (k + 1) → (natDigits n).length = k + 1 := by
  induction k with
  | zero =>
    intro n h1 h2
    rw [natDigits_lt10 n (by simpa using h2)]
    rfl
  | succ k ih =>
    intro n h1 h2
    have h10 : (10 : Nat) ≤ n := by
      have hp : (10 : Nat) ^ 1 ≤ 10 ^ (k + 1) := Nat.pow_le_pow_right (by omega) (by omega)
      have hp1 : (10 : Nat) ^ 1 = 10 := pow_one 10
      omega
    have hlo : 10 ^ k ≤ n / 10 := by
      rw [Nat.le_div_iff_mul_le (by omega)]
      calc 10 ^ k * 10 = 10 ^ (k + 1) := (pow_succ 10 k).symm
        _ ≤ n := h1
    have hhi : n / 10 < 10 ^ (k + 1) := by
      rw [Nat.div_lt_iff_lt_mul (by omega)]
      calc n < 10 ^ (k + 1 + 1) := h2
        _ = 10 ^ (k + 1) * 10 := pow_succ 10 (k + 1)
    rw [natDigits_ge10 n h10, List.length_append, ih (n / 10) hlo hhi]
    rfl

theorem digitChar_isDigit (n : Nat) (h : n < 10) : (digitChar n).isDigit = true := by
  interval_cases n <;> decide

theorem natDigits_all_isDigit : ∀ n : Nat, ∀ c ∈ natDigits n, c.isDigit = true := by
  intro n
  induction n using Nat.strong_induction_on with
  | _ n ih =>
    by_cases h : n < 10
    · rw [natDigits_lt10 n h]
      intro c hc
      simp only [List.mem_singleton] at hc
      subst hc
      exact digitChar_isDigit n h
    · rw [natDigits_ge10 n (by omega)]
      intro c hc
      rcases List.mem_append.mp hc with hc | hc
      · exact ih (n / 10) (by omega) c hc
      · simp only [List.mem_singleton] at hc
        subst hc
        exact digitChar_isDigit _ (Nat.mod_lt _ (by omega))

theorem padZeros_length (w : Nat) (l : List Char) (h : l.length ≤ w) :
    (padZeros w l).length = w := by
  simp [padZeros]
  omega

theorem padZeros_all_isDigit (w : Nat) (l : List Char)
    (h : ∀ c ∈ l, c.isDigit = true) : ∀ c ∈ padZeros w l, c.isDigit = true := by
  intro c hc
  rcases List.mem_append.mp hc with hc | hc
  · have hz := List.eq_of_mem_replicate hc
    subst hz
    decide
  · exact h c hc

theorem map_digits_replicate (l : List Char) (h : ∀ c ∈ l, c.isDigit = true) :
    l.map (fun c => if c.isDigit then 'D' else c) = List.replicate l.length 'D' := by
  induction l with
  | nil => rfl
  | cons c cs ih =>
    have hc := h c (by simp)
    simp [hc, List.replicate_succ, ih (fun x hx => h x (by simp [hx]))]

theorem pad2c_shape (m : Nat) (h : m < 100) :
    (pad2c m).length = 2 ∧ ∀ c ∈ pad2c m, c.isDigit = true := by
  constructor
  · apply padZeros_length
    by_cases h10 : m < 10
    · rw [natDigits_lt10 m h10]
      simp
    · have hlen := natDigits_length 1 m (by rw [pow_one]; omega)
        (by have : (10 : Nat) ^ 2 = 100 := by norm_num
            omega)
      omega
  · exact padZeros_all_isDigit _ _ (natDigits_all_isDigit m)

theorem pad4c_shape (y : Nat) (h1 : 1000 ≤ y) (h2 : y < 10000) :
    (pad4c y).length = 4 ∧ ∀ c ∈ pad4c y, c.isDigit = true := by
  constructor
  · apply padZeros_length
    have hlen := natDigits_length 3 y
      (by have : (10 : Nat) ^ 3 = 1000 := by norm_num
          omega)
      (by have : (10 : Nat) ^ 4 = 10000 := by norm_num
          omega)
    omega
  · exact padZeros_all_isDigit _ _ (natDigits_all_isDigit y)

/-- Claim C7: the datePosted stored with every created job is the UTC calendar
date of the creation instant, formatted as the ten character string
YYYY-MM-DD: there is a valid Gregorian date y-m-d whose day number equals the
creation day and whose zero padded rendering is exactly the stored string.
The bound keeps the instant before the year 10000, where the toISOString
format widens. -/
theorem createJob_datePosted_calendar (body : JobBody) (files : List DriveFile)
    (upload : DriveFile → String) (nid : String) (t : Nat)
    (store : List (String × JobRecord)) (ht : t < 253402300800000) :
    (createJob body files upload nid t store).2
      = store ++ [(nid, mkJob body files upload t)] ∧
    ∃ y m d : Nat, validCivilDate y m d ∧
      specDaysSinceEpoch y m d = t / msPerDay ∧
      (mkJob body files upload t).datePosted = fmtDate y m d ∧
      ((mkJob body files upload t).datePosted.data.map
          (fun c => if c.isDigit then 'D' else c))
        = ['D', 'D', 'D', 'D', '-', 'D', 'D', '-', 'D', 'D'] := by
  refine ⟨rfl, ?_⟩
  have hbig : dayFromYear 10000 = 2932897 := by decide
  have hday : t / msPerDay < dayFromYear 10000 := by
    rw [hbig]
    simp only [msPerDay]
    omega
  obtain ⟨hy1970, hyle, hylt, hy10000⟩ := yearFromDay_spec (t / msPerDay) hday
  set day := t / msPerDay with hday_def
  set y := yearFromDay day with hy_def
  set L := inLeapL y with hL_def
  set doy := day - dayFromYear y with hdoy_def
  have hL2 : L < 2 := by
    rw [hL_def]
    unfold inLeapL
    split <;> omega
  have hdiy : daysInYear y = 365 + L := by
    rw [hL_def]
    unfold daysInYear inLeapL
    by_cases hb : isLeapYear y = true <;> simp [hb]
  have hsucc := dayFromYear_succ y hy1970
  have hdoy365 : doy < 365 + L := by omega
  obtain ⟨hm1, hm12, hd1, hd31, hdle, hcum⟩ := monthDate_spec doy (by omega) L hL2 hdoy365
  set m := monthFromDoy doy L with hm_def
  set d := dateFromDoy doy L with hd_def
  refine ⟨y, m, d, ?_, ?_, ?_, ?_⟩
  · exact ⟨hy1970, hm1, hm12, hd1, hdle⟩
  · unfold specDaysSinceEpoch
    rw [← hL_def, ← dayFromYear_eq_spec y hy1970]
    omega
  · rfl
  · have hfmt : (mkJob body files upload t).datePosted = fmtDate y m d := rfl
    rw [hfmt]
    have h4 := pad4c_shape y (by omega) (by omega)
    have h2m := pad2c_shape m (by omega)
    have h2d := pad2c_shape d (by omega)
    have e4 := map_digits_replicate (pad4c y) h4.2
    have e2m := map_digits_replicate (pad2c m) h2m.2
    have e2d := map_digits_replicate (pad2c d) h2d.2
    rw [h4.1] at e4
    rw [h2m.1] at e2m
    rw [h2d.1] at e2d
    show (pad4c y ++ '-' :: (pad2c m ++ '-' :: pad2c d)).map
        (fun c => if c.isDigit then 'D' else c)
      = ['D', 'D', 'D', 'D', '-', 'D', 'D', '-', 'D', 'D']
    rw [List.map_append, List.map_cons, List.map_append, List.map_cons, e4, e2m, e2d]
    rfl

theorem createJob_datePosted_calendar_witness :
    (createJob jbW [] up0 "cccccccccccccccccccccccc" 0 []).2
      = [] ++ [("cccccccccccccccccccccccc", mkJob jbW [] up0 0)] ∧
    ∃ y m d : Nat, validCivilDate y m d ∧
      specDaysSinceEpoch y m d = 0 / msPerDay ∧
      (mkJob jbW [] up0 0).datePosted = fmtDate y m d ∧
      ((mkJob jbW [] up0 0).datePosted.data.map
          (fun c => if c.isDigit then 'D' else c))
        = ['D', 'D', 'D', 'D', '-', 'D', 'D', '-', 'D', 'D'] :=
  createJob_datePosted_calendar jbW [] up0 "cccccccccccccccccccccccc" 0 [] (by decide)
